import Mathlib

set_option maxHeartbeats 1000000

/-
Verification of the RCM contract-analysis repository.

The repository ships the React frontend (src/frontend) together with a backend
README describing a FastAPI analysis pipeline whose implementation files are
not part of the checkout.  Frontend components (StatusBadge, ContractValueDisplay,
DataField, ContractList, FileUpload, the api client) are embedded directly from
their JSX sources.  Backend components (Validator, Extraction Schema Validator,
Analysis Orchestrator, retry policy) are modelled from the specification, as
marked on each definition.
-/

/-- A JavaScript value, as manipulated by the frontend components.
Objects are association lists from property names to values. -/
inductive JSValue where
  | null
  | undefinedJS
  | bool (b : Bool)
  | num (n : Int)
  | str (s : String)
  | obj (fields : List (String × JSValue))

/-- JavaScript truthiness of a value. -/
def JSValue.truthy : JSValue → Bool
  | .null => false
  | .undefinedJS => false
  | .bool b => b
  | .num n => n != 0
  | .str s => s != ""
  | .obj _ => true

/-- Whether the JavaScript typeof test yields the string object
(true for null and for objects, as in JavaScript). -/
def JSValue.typeofIsObject : JSValue → Bool
  | .null => true
  | .obj _ => true
  | _ => false

/-- Property access: v.k, yielding undefined when the key is missing or the
value is not an object. -/
def JSValue.get : JSValue → String → JSValue
  | .obj fs, k => (fs.lookup k).getD .undefinedJS
  | _, _ => .undefinedJS

/-- The JavaScript `in` test for key presence on an object. -/
def JSValue.hasKey : JSValue → String → Bool
  | .obj fs, k => (fs.lookup k).isSome
  | _, _ => false

/-- Whether a value is exactly the JavaScript null (strict equality with null). -/
def JSValue.isNull : JSValue → Bool
  | .null => true
  | _ => false

/-- Embedded from src/frontend/src/components/StatusBadge.jsx: one entry of the
statusConfig table. -/
structure BadgeConfig where
  variant : String
  icon : String
  label : String
  className : String
  deriving DecidableEq, Repr

/-- Embedded from StatusBadge.jsx: statusConfig.uploaded. -/
def uploadedConfig : BadgeConfig :=
  { variant := "secondary", icon := "Clock", label := "Uploaded",
    className := "bg-slate-100 text-slate-700 hover:bg-slate-100 border border-slate-200" }

/-- Embedded from StatusBadge.jsx: statusConfig.processing. -/
def processingConfig : BadgeConfig :=
  { variant := "default", icon := "Loader", label := "Processing",
    className := "bg-blue-50 text-blue-700 hover:bg-blue-50 border border-blue-200" }

/-- Embedded from StatusBadge.jsx: statusConfig.completed. -/
def completedConfig : BadgeConfig :=
  { variant := "default", icon := "CheckCircle", label := "Completed",
    className := "bg-emerald-50 text-emerald-700 hover:bg-emerald-50 border border-emerald-200" }

/-- Embedded from StatusBadge.jsx: statusConfig.failed. -/
def failedConfig : BadgeConfig :=
  { variant := "destructive", icon := "AlertCircle", label := "Failed",
    className := "bg-red-50 text-red-700 hover:bg-red-50 border border-red-200" }

/-- Property names inherited by every plain JavaScript object literal from
Object.prototype.  A computed member access statusConfig[status] with one of
these keys returns the inherited member, which is truthy, instead of
undefined. -/
def objectPrototypeMembers : List String :=
  ["constructor", "hasOwnProperty", "isPrototypeOf", "propertyIsEnumerable",
   "toLocaleString", "toString", "valueOf", "__proto__",
   "__defineGetter__", "__defineSetter__", "__lookupGetter__", "__lookupSetter__"]

/-- The possible results of the computed member access statusConfig[status]:
an own entry of the statusConfig object literal, a truthy member inherited
from Object.prototype, or undefined. -/
inductive MemberLookup where
  | ownConfig (c : BadgeConfig)
  | inherited
  | missing
  deriving DecidableEq, Repr

/-- Embedded from StatusBadge.jsx: the computed member access
statusConfig[status], with JavaScript prototype-chain semantics: the own keys
of the object literal first, then the members inherited from Object.prototype,
then undefined. -/
def statusConfigLookup (status : String) : MemberLookup :=
  if status = "uploaded" then .ownConfig uploadedConfig
  else if status = "processing" then .ownConfig processingConfig
  else if status = "completed" then .ownConfig completedConfig
  else if status = "failed" then .ownConfig failedConfig
  else if status ∈ objectPrototypeMembers then .inherited
  else .missing

/-- The rendered badge: the chosen configuration plus whether the icon spins. -/
structure BadgeRender where
  config : BadgeConfig
  spin : Bool
  deriving DecidableEq, Repr

/-- What the StatusBadge component does for a given status prop: it renders
the badge, or it throws during render because config.icon is undefined (an
inherited Object.prototype member is truthy, so the fallback in
statusConfig[status] || statusConfig.uploaded does not fire, and the inherited
member has no icon field). -/
inductive BadgeOutcome where
  | renders (b : BadgeRender)
  | renderError
  deriving DecidableEq, Repr

/-- Embedded from StatusBadge.jsx: the component body.  The status prop may be
a string or undefined (modelled as none; the key then stringifies to
"undefined", which is neither an own key nor an inherited member, so the
fallback fires).  The config is statusConfig[status] || statusConfig.uploaded;
a truthy inherited member defeats the fallback and rendering the undefined
Icon element throws.  The icon spins exactly when the status is the
processing string. -/
def StatusBadge (status : Option String) : BadgeOutcome :=
  match status with
  | none => .renders { config := uploadedConfig, spin := false }
  | some s =>
    match statusConfigLookup s with
    | .ownConfig c => .renders { config := c, spin := s == "processing" }
    | .inherited => .renderError
    | .missing => .renders { config := uploadedConfig, spin := s == "processing" }

/-- Embedded from ContractDetail.jsx: formatCurrency returns null for a null or
undefined amount, otherwise the Intl-formatted amount with the given currency
(defaulting to USD when the currency argument is undefined).  The formatted
text is abstracted as the pair of amount and resolved currency. -/
def resolveCurrency : JSValue → JSValue
  | .undefinedJS => .str "USD"
  | c => c

/-- Embedded from ContractDetail.jsx: formatCurrency. -/
def formatCurrency (amount currency : JSValue) : Option (JSValue × JSValue) :=
  match amount with
  | .null => none
  | .undefinedJS => none
  | a => some (a, resolveCurrency currency)

/-- The possible renderings of ContractValueDisplay, one constructor per
return site of the component.  Badge contents in the pricing branch are
abstracted to their visibility (truthiness of the corresponding field). -/
inductive ValueRendering where
  | notFound
  | pricing (summary : JSValue)
      (monthlyBadge percentageBadge perEncounterBadge totalBadge variableBadge : Bool)
  | legacyAmount (formatted : Option (JSValue × JSValue)) (estimateBadge : Bool)
  | legacyVariable (estimateBadge : Bool)

/-- Embedded from src/frontend/src/components/ContractDetail.jsx lines 41 to 111:
the ContractValueDisplay component.  Branches, in source order: non-object
or falsy input renders Not found; a truthy pricing_summary property selects the
pricing-summary rendering; otherwise an amount key selects one of the two
legacy renderings depending on whether amount is null; otherwise Not found. -/
def ContractValueDisplay (value : JSValue) : ValueRendering :=
  if !value.truthy || !value.typeofIsObject then .notFound
  else if (value.get "pricing_summary").truthy then
    .pricing (value.get "pricing_summary")
      (value.get "monthly_fee").truthy
      (value.get "percentage_rate").truthy
      (value.get "per_encounter_fee").truthy
      (value.get "total_value").truthy
      (value.get "is_variable").truthy
  else if value.hasKey "amount" then
    if (value.get "amount").isNull then
      .legacyVariable (value.get "is_estimate").truthy
    else
      .legacyAmount (formatCurrency (value.get "amount") (value.get "currency"))
        (value.get "is_estimate").truthy
  else .notFound

/-- Modelled from the spec (4.3): the nested pricing-summary object for the
monetary contract value, with its six optional sub-fields.  The backend
Extraction Schema Validator that owns this shape is not in the checkout. -/
structure PricingSummary where
  monthly_fee : Option Int
  percentage_rate : Option Int
  per_encounter_fee : Option Int
  total_value : Option Int
  is_variable : Option Bool
  currency : Option String
  deriving DecidableEq, Repr

/-- Modelled from the spec (4.3): a field value of the canonical schema:
the explicit not-found marker, a scalar, an ordered list of strings, or the
monetary value in either the legacy single-amount shape (pre-normalization
stored data) or the pricing-summary shape. -/
inductive FieldValue where
  | notFound
  | scalarS (s : String)
  | scalarN (n : Int)
  | scalarB (b : Bool)
  | strList (items : List String)
  | legacyMoney (amount : Option Int) (currency : Option String) (is_estimate : Bool)
  | pricing (p : PricingSummary)
  deriving DecidableEq, Repr

/-- Modelled from the spec (4.3): coercion of the legacy single-amount monetary
shape to the pricing-summary shape.  The single amount becomes the total value;
a null amount marks variable pricing (as the frontend legacy branch reads it);
the pricing-summary shape has no estimate sub-field, so the estimate flag is
dropped. -/
def coerceLegacyMoney (amount : Option Int) (currency : Option String)
    (_is_estimate : Bool) : PricingSummary :=
  { monthly_fee := none, percentage_rate := none, per_encounter_fee := none,
    total_value := amount,
    is_variable := if amount.isNone then some true else none,
    currency := currency }

/-- Modelled from the spec (4.3): normalization of a single field value, which
coerces the legacy monetary shape to the pricing-summary shape and leaves every
other value unchanged. -/
def normalizeValue : FieldValue → FieldValue
  | .legacyMoney a c e => .pricing (coerceLegacyMoney a c e)
  | v => v

/-- A value is canonical when it is not in the legacy monetary shape. -/
def isCanonicalValue : FieldValue → Bool
  | .legacyMoney _ _ _ => false
  | _ => true

/-- A category of the canonical schema: named fields with values. -/
abbrev Category := List (String × FieldValue)

/-- Field names of vendor_information, as consumed by ContractDetail.jsx. -/
def vendorFields : List String :=
  ["vendor_name", "vendor_contact", "vendor_address", "vendor_tax_id"]

/-- Field names of financial_terms, as consumed by ContractDetail.jsx. -/
def financialFields : List String :=
  ["contract_value", "payment_terms", "payment_schedule", "pricing_model",
   "percentage_of_collections", "late_payment_penalties"]

/-- Field names of service_details, as consumed by ContractDetail.jsx. -/
def serviceFields : List String :=
  ["service_scope", "services_included", "services_excluded",
   "performance_metrics", "service_level_agreements"]

/-- Field names of contract_terms, as consumed by ContractDetail.jsx. -/
def contractTermsFields : List String :=
  ["start_date", "end_date", "contract_duration", "automatic_renewal",
   "renewal_terms", "termination_clauses", "notice_period"]

/-- Field names of compliance_and_legal, as consumed by ContractDetail.jsx. -/
def complianceFields : List String :=
  ["hipaa_compliance_mentioned", "hipaa_requirements", "data_security_requirements",
   "audit_rights", "liability_limitations", "indemnification", "insurance_requirements"]

/-- Field names of rcm_specific, as consumed by ContractDetail.jsx. -/
def rcmFields : List String :=
  ["billing_services", "coding_services", "denial_management", "ar_follow_up",
   "patient_collections", "expected_collection_rate", "reporting_frequency",
   "technology_platform"]

/-- Modelled from the spec (4.3, 6): the canonical persisted and returned
structured-data shape: six categories plus free-text notes, every named field
present (possibly as the not-found marker). -/
structure StructuredData where
  vendor_information : Category
  financial_terms : Category
  service_details : Category
  contract_terms : Category
  compliance_and_legal : Category
  rcm_specific : Category
  additional_notes : Option String
  deriving DecidableEq, Repr

/-- Modelled from the spec (4.3): a structurally valid but possibly incomplete
parsed AI response: each category may be missing entirely, and a present
category may mention only some fields. -/
structure RawPayload where
  vendor_information : Option Category
  financial_terms : Option Category
  service_details : Option Category
  contract_terms : Option Category
  compliance_and_legal : Option Category
  rcm_specific : Option Category
  additional_notes : Option String
  deriving DecidableEq, Repr

/-- Modelled from the spec (4.3): normalization of one category: every canonical
field name is given a slot, filled from the raw category when present there and
with the explicit not-found marker otherwise, and each value is normalized. -/
def normalizeCategory (names : List String) (raw : Option Category) : Category :=
  names.map (fun n => (n, normalizeValue (((raw.getD []).lookup n).getD .notFound)))

/-- Modelled from the spec (4.3): normalization of a whole parsed payload into
the canonical six-category shape. -/
def normalizePayload (p : RawPayload) : StructuredData :=
  { vendor_information := normalizeCategory vendorFields p.vendor_information,
    financial_terms := normalizeCategory financialFields p.financial_terms,
    service_details := normalizeCategory serviceFields p.service_details,
    contract_terms := normalizeCategory contractTermsFields p.contract_terms,
    compliance_and_legal := normalizeCategory complianceFields p.compliance_and_legal,
    rcm_specific := normalizeCategory rcmFields p.rcm_specific,
    additional_notes := p.additional_notes }

/-- Modelled from the spec (4.3): schema errors.  A parse failure of the raw
model output is the malformed_output reason. -/
inductive SchemaError where
  | malformed_output
  deriving DecidableEq, Repr

/-- Modelled from the spec (4.3): validate_and_normalize over the parse result
of the raw model output.  Unparseable output (none) is a SchemaError; a parsed
but incomplete payload is a success with missing parts represented as absent. -/
def validate_and_normalize (raw : Option RawPayload) : Except SchemaError StructuredData :=
  match raw with
  | none => .error .malformed_output
  | some p => .ok (normalizePayload p)

/-- A parsed payload with every category missing. -/
def emptyRawPayload : RawPayload :=
  { vendor_information := none, financial_terms := none, service_details := none,
    contract_terms := none, compliance_and_legal := none, rcm_specific := none,
    additional_notes := none }

/-- The structured data in which every canonical field carries the explicit
not-found marker. -/
def allAbsentStructuredData : StructuredData :=
  { vendor_information := vendorFields.map (fun n => (n, FieldValue.notFound)),
    financial_terms := financialFields.map (fun n => (n, FieldValue.notFound)),
    service_details := serviceFields.map (fun n => (n, FieldValue.notFound)),
    contract_terms := contractTermsFields.map (fun n => (n, FieldValue.notFound)),
    compliance_and_legal := complianceFields.map (fun n => (n, FieldValue.notFound)),
    rcm_specific := rcmFields.map (fun n => (n, FieldValue.notFound)),
    additional_notes := none }

/-- The six categories of a structured-data value, with their names. -/
def categoriesOf (sd : StructuredData) : List (String × Category) :=
  [("vendor_information", sd.vendor_information),
   ("financial_terms", sd.financial_terms),
   ("service_details", sd.service_details),
   ("contract_terms", sd.contract_terms),
   ("compliance_and_legal", sd.compliance_and_legal),
   ("rcm_specific", sd.rcm_specific)]

/-- Every canonical field name of the category resolves to a present entry. -/
def categoryComplete (names : List String) (c : Category) : Bool :=
  names.all (fun n => (c.lookup n).isSome)

/-- Every canonical field of every category is present in the structured data. -/
def sdComplete (sd : StructuredData) : Bool :=
  categoryComplete vendorFields sd.vendor_information &&
  categoryComplete financialFields sd.financial_terms &&
  categoryComplete serviceFields sd.service_details &&
  categoryComplete contractTermsFields sd.contract_terms &&
  categoryComplete complianceFields sd.compliance_and_legal &&
  categoryComplete rcmFields sd.rcm_specific

/-- No field value anywhere in the structured data is in the legacy shape. -/
def sdCanonical (sd : StructuredData) : Bool :=
  (categoriesOf sd).all (fun nc => nc.2.all (fun fv => isCanonicalValue fv.2))

/-- Modelled from the spec (3, 4.3): an Extracted Field, a flattened
(category, field name, value) triple. -/
structure ExtractedField where
  category : String
  field_name : String
  value : String
  deriving DecidableEq, Repr

/-- Dotted sub-entries emitted for a legacy monetary value, before
normalization would rewrite it. -/
def legacyEntries (amount : Option Int) (currency : Option String)
    (is_est : Bool) : List (String × String) :=
  (match amount with | some v => [("amount", toString v)] | none => []) ++
  (match currency with | some v => [("currency", v)] | none => []) ++
  (if is_est then [("is_estimate", "true")] else [])

/-- Dotted sub-entries emitted for a pricing-summary value: one entry per
present sub-field. -/
def pricingEntries (p : PricingSummary) : List (String × String) :=
  (match p.monthly_fee with | some v => [("monthly_fee", toString v)] | none => []) ++
  (match p.percentage_rate with | some v => [("percentage_rate", toString v)] | none => []) ++
  (match p.per_encounter_fee with | some v => [("per_encounter_fee", toString v)] | none => []) ++
  (match p.total_value with | some v => [("total_value", toString v)] | none => []) ++
  (match p.is_variable with | some v => [("is_variable", toString v)] | none => []) ++
  (match p.currency with | some v => [("currency", v)] | none => [])

/-- Modelled from the spec (4.3): flattening of one field value: absent values
emit nothing, scalars and lists emit one entry keyed by category and field,
nested monetary objects emit dotted composite names. -/
def flattenValue (cat fname : String) : FieldValue → List ExtractedField
  | .notFound => []
  | .scalarS s => [⟨cat, fname, s⟩]
  | .scalarN n => [⟨cat, fname, toString n⟩]
  | .scalarB b => [⟨cat, fname, toString b⟩]
  | .strList items => [⟨cat, fname, String.intercalate "; " items⟩]
  | .legacyMoney a c e =>
      (legacyEntries a c e).map (fun q => ⟨cat, fname ++ "." ++ q.1, q.2⟩)
  | .pricing p =>
      (pricingEntries p).map (fun q => ⟨cat, fname ++ "." ++ q.1, q.2⟩)

/-- Flattening of one named category. -/
def flattenCategory (catName : String) (c : Category) : List ExtractedField :=
  c.flatMap (fun fv => flattenValue catName fv.1 fv.2)

/-- Flattening of a list of named categories, in the given order. -/
def flattenWith (cats : List (String × Category)) : List ExtractedField :=
  (cats.map (fun nc => flattenCategory nc.1 nc.2)).flatten

/-- Modelled from the spec (4.3): flattening of structured data into its
Extracted Fields. -/
def flattenStructuredData (sd : StructuredData) : List ExtractedField :=
  flattenWith (categoriesOf sd)

/-- Contract status, the state machine of spec 4.4. -/
inductive Status where
  | uploaded
  | processing
  | completed
  | failed
  deriving DecidableEq, Repr

/-- Modelled from the spec (3): an Analysis record, created only on successful
completion of an attempt. -/
structure Analysis where
  analysisId : Nat
  contractId : Nat
  structured : StructuredData
  deriving DecidableEq, Repr

/-- Modelled from the spec (3, 4.4, 5): a Contract record.  The inFlight field
counts analysis attempts currently executing for the contract; analyses
retains every completed Analysis (the last one is current). -/
structure ContractRec where
  contractId : Nat
  status : Status
  error_message : Option String
  analyses : List Analysis
  inFlight : Nat
  deriving DecidableEq, Repr

/-- Errors surfaced synchronously to callers of contract operations. -/
inductive AppError where
  | concurrencyError
  | notFoundError
  deriving DecidableEq, Repr

/-- Modelled from the spec (4.1): a fresh contract record after successful
intake. -/
def newContract (cid : Nat) : ContractRec :=
  { contractId := cid, status := .uploaded, error_message := none,
    analyses := [], inFlight := 0 }

/-- Modelled from the spec (4.4, 5): the compare-and-set transition into
processing, used by upload completion and by reanalyze.  A contract already in
processing is rejected with ConcurrencyError; otherwise the status becomes
processing, the error message is cleared and one attempt goes in flight. -/
def startAnalysis (c : ContractRec) : Except AppError ContractRec :=
  if c.status = .processing then .error .concurrencyError
  else .ok { c with status := .processing, error_message := none,
                    inFlight := c.inFlight + 1 }

/-- Modelled from the spec (4.4, 5): the persistence write of a successful
attempt.  It verifies the contract is still in processing before committing;
a stale write is a no-op.  On commit the new Analysis is appended, the status
becomes completed and the attempt leaves flight. -/
def finishCompleted (c : ContractRec) (a : Analysis) : ContractRec :=
  if c.status = .processing then
    { c with status := .completed, error_message := none,
             analyses := c.analyses ++ [a], inFlight := c.inFlight - 1 }
  else c

/-- Modelled from the spec (4.4, 7): the terminal-failure write of an attempt.
It verifies the contract is still in processing; on commit the status becomes
failed and the classified message is persisted. -/
def finishFailed (c : ContractRec) (msg : String) : ContractRec :=
  if c.status = .processing then
    { c with status := .failed, error_message := some msg,
             inFlight := c.inFlight - 1 }
  else c

/-- The contract records reachable through the lifecycle operations. -/
inductive Reachable : ContractRec → Prop where
  | created (cid : Nat) : Reachable (newContract cid)
  | started (c c2 : ContractRec) : Reachable c → startAnalysis c = .ok c2 → Reachable c2
  | completedStep (c : ContractRec) (a : Analysis) : Reachable c → Reachable (finishCompleted c a)
  | failedStep (c : ContractRec) (msg : String) : Reachable c → Reachable (finishFailed c msg)

/-- Modelled from the spec (4.4, 7): AI-service error classes. -/
inductive AIError where
  | timeout
  | rateLimit
  | serverError
  | invalidRequest (msg : String)
  deriving DecidableEq, Repr

/-- Modelled from the spec (4.4, 7): transient AI-service errors are timeout,
rate limiting and 5xx-equivalent server errors. -/
def isTransient : AIError → Bool
  | .timeout => true
  | .rateLimit => true
  | .serverError => true
  | .invalidRequest _ => false

/-- User-facing message for a terminal AI-service error. -/
def aiErrorMessage : AIError → String
  | .timeout => "AI service timed out"
  | .rateLimit => "AI service rate limited"
  | .serverError => "AI service unavailable"
  | .invalidRequest m => "AI service rejected the request: " ++ m

/-- Modelled from the spec (4.4): exponential backoff delay before retry k. -/
def backoffDelay (baseMs attempt : Nat) : Nat := baseMs * 2 ^ attempt

/-- Modelled from the spec (4.4): the bounded retry loop around the AI-service
call.  The first argument of the loop is the number of retries still allowed;
the second is the index of the attempt about to run.  The result carries the
final outcome and the number of attempts actually made.  A success returns at
once; a transient error consumes a retry; a non-transient error is terminal
immediately. -/
def callWithRetry (ai : Nat → Except AIError String) :
    Nat → Nat → Except AIError String × Nat
  | 0, attempt =>
    match ai attempt with
    | .ok t => (.ok t, 1)
    | .error e => (.error e, 1)
  | Nat.succ n, attempt =>
    match ai attempt with
    | .ok t => (.ok t, 1)
    | .error e =>
      if isTransient e then
        ((callWithRetry ai n (attempt + 1)).1, (callWithRetry ai n (attempt + 1)).2 + 1)
      else (.error e, 1)

/-- Modelled from the spec (4.2): extraction error reasons. -/
inductive ExtractionError where
  | parseFailure
  | noTextLayer
  deriving DecidableEq, Repr

/-- User-facing message for a terminal extraction error. -/
def extractionErrorMessage : ExtractionError → String
  | .parseFailure => "Document could not be parsed"
  | .noTextLayer => "Document contains no extractable text"

/-- User-facing message for a schema error. -/
def schemaErrorMessage : SchemaError → String
  | .malformed_output => "AI response was not valid JSON"

/-- The outcome of one analysis attempt. -/
inductive AnalysisOutcome where
  | completedA (sd : StructuredData)
  | failedA (msg : String)
  deriving DecidableEq, Repr

/-- The outcome of an attempt together with the number of AI-service calls
it made. -/
structure RunResult where
  outcome : AnalysisOutcome
  aiCalls : Nat
  deriving DecidableEq, Repr

/-- Modelled from the spec (4.4): one analysis attempt: text extraction, then
the AI-service call under the retry policy, then schema validation and
normalization.  Extraction and schema failures are terminal without any retry;
only the AI call sits inside the retry loop. -/
def runAnalysisAttempt (extracted : Except ExtractionError String)
    (ai : Nat → Except AIError String) (maxRetries : Nat)
    (parse : String → Option RawPayload) : RunResult :=
  match extracted with
  | .error e => { outcome := .failedA (extractionErrorMessage e), aiCalls := 0 }
  | .ok _text =>
    match callWithRetry ai maxRetries 0 with
    | (.error e, k) => { outcome := .failedA (aiErrorMessage e), aiCalls := k }
    | (.ok response, k) =>
      match validate_and_normalize (parse response) with
      | .error se => { outcome := .failedA (schemaErrorMessage se), aiCalls := k }
      | .ok sd => { outcome := .completedA sd, aiCalls := k }

/-- Modelled from the spec (4.4): committing the outcome of an attempt onto the
contract record: a success persists a new Analysis, a failure persists the
message. -/
def applyOutcome (c : ContractRec) (aid : Nat) (r : RunResult) : ContractRec :=
  match r.outcome with
  | .completedA sd =>
      finishCompleted c { analysisId := aid, contractId := c.contractId, structured := sd }
  | .failedA msg => finishFailed c msg

/-- Modelled from the spec (4.1, 7): upload validation errors. -/
inductive ValidationError where
  | unsupportedType
  | emptyFile
  | tooLarge
  deriving DecidableEq, Repr

/-- Detected file type of an upload. -/
inductive FileType where
  | pdf
  | docx
  deriving DecidableEq, Repr

/-- Metadata of an uploaded file, as seen by the Validator. -/
structure FileMeta where
  filename : String
  content_type : String
  size : Nat
  deriving DecidableEq, Repr

/-- The configured maximum upload size: 50 MiB, as the spec default and the
frontend Max 50MB hint. -/
def defaultMaxSize : Nat := 50 * 1024 * 1024

/-- Suffix test on the character lists of two strings (the extension check of
the validator, kept kernel-computable). -/
def strEndsWith (s post : String) : Bool :=
  post.data.isSuffixOf s.data

/-- Modelled from the spec (4.1) and the dropzone accept map of
src/frontend/src/components/FileUpload.jsx: file-type detection from the
declared content type and extension, PDF and DOCX only. -/
def detectFileType (filename content_type : String) : Option FileType :=
  if content_type == "application/pdf" || strEndsWith filename ".pdf" then
    some FileType.pdf
  else if content_type == "application/vnd.openxmlformats-officedocument.wordprocessingml.document"
      || strEndsWith filename ".docx" then
    some FileType.docx
  else none

/-- Modelled from the spec (4.1): the Validator.  Rejects unsupported types,
empty files, and files larger than the configured maximum; a file of exactly
the maximum size passes. -/
def validate (maxSize : Nat) (m : FileMeta) : Except ValidationError FileType :=
  match detectFileType m.filename m.content_type with
  | none => .error .unsupportedType
  | some ft =>
    if m.size = 0 then .error .emptyFile
    else if maxSize < m.size then .error .tooLarge
    else .ok ft

/-- Modelled from the spec (4.1): intake.  On a validation error the store is
returned untouched (no record created); on success a contract record in status
uploaded is appended. -/
def upload (maxSize : Nat) (store : List ContractRec) (m : FileMeta) :
    Option ValidationError × List ContractRec :=
  match validate maxSize m with
  | .error e => (some e, store)
  | .ok _ => (none, store ++ [newContract store.length])

/-- The pagination request issued by the contract list view. -/
structure ListRequest where
  page : Nat
  page_size : Nat
  deriving DecidableEq, Repr

/-- Embedded from src/frontend/src/components/ContractList.jsx fetchContracts:
the only list request the UI ever issues. -/
def fetchContractsRequest : ListRequest := { page := 1, page_size := 50 }

/-- Modelled from the spec (6): the paginated contract listing consumed by the
frontend. -/
def paginate (page page_size : Nat) (l : List ContractRec) : List ContractRec :=
  (l.drop ((page - 1) * page_size)).take page_size

/-- The contracts shown by the list view for a given store content. -/
def contractListDisplayed (allContracts : List ContractRec) : List ContractRec :=
  paginate fetchContractsRequest.page fetchContractsRequest.page_size allContracts

/-- Normalization always yields a canonical value. -/
theorem isCanonicalValue_normalizeValue (v : FieldValue) :
    isCanonicalValue (normalizeValue v) = true := by
  cases v <;> rfl

/-- Every value of a normalized category is canonical. -/
theorem normalizeCategory_canonical (names : List String) (raw : Option Category) :
    (normalizeCategory names raw).all (fun fv => isCanonicalValue fv.2) = true := by
  unfold normalizeCategory
  rw [List.all_eq_true]
  intro x hx
  rcases List.mem_map.mp hx with ⟨n, hn, rfl⟩
  exact isCanonicalValue_normalizeValue _

/-- Tabulating a function over a list of names makes every name resolvable. -/
theorem lookup_tabulate_isSome (g : String → FieldValue) :
    ∀ (names : List String) (n : String), n ∈ names →
      ((names.map (fun m => (m, g m))).lookup n).isSome = true := by
  intro names
  induction names with
  | nil => intro n h; cases h
  | cons m ms ih =>
    intro n h
    rcases List.mem_cons.mp h with h1 | h2
    · subst h1
      simp [List.lookup]
    · by_cases hnm : n = m
      · subst hnm
        simp [List.lookup]
      · have hbeq : (n == m) = false := beq_eq_false_iff_ne.mpr hnm
        simp only [List.map_cons, List.lookup, hbeq]
        exact ih n h2

/-- A normalized category resolves every canonical field name. -/
theorem normalizeCategory_complete (names : List String) (raw : Option Category) :
    categoryComplete names (normalizeCategory names raw) = true := by
  unfold categoryComplete normalizeCategory
  rw [List.all_eq_true]
  intro n hn
  exact lookup_tabulate_isSome _ names n hn

/-- Counterexample to C8 as stated: the unknown status string constructor
does not fall back to the uploaded configuration; the computed access returns
the truthy inherited Object.prototype member, so the fallback does not fire
and the component throws during render on an undefined icon. -/
theorem statusBadge_fallback_counterexample :
    StatusBadge (some "constructor") = BadgeOutcome.renderError := by
  decide

/-- Claim C8, corrected: each of the four known status strings renders its own
configured label and styling; undefined and unknown status strings that are
not inherited Object.prototype property names fall back to the uploaded
configuration; but a status string naming an inherited Object.prototype member
retrieves the truthy inherited member instead, so the fallback does not fire
and the render fails on an undefined icon. -/
theorem statusBadge_amended :
    StatusBadge (some "uploaded") =
      BadgeOutcome.renders { config := uploadedConfig, spin := false } ∧
    StatusBadge (some "processing") =
      BadgeOutcome.renders { config := processingConfig, spin := true } ∧
    StatusBadge (some "completed") =
      BadgeOutcome.renders { config := completedConfig, spin := false } ∧
    StatusBadge (some "failed") =
      BadgeOutcome.renders { config := failedConfig, spin := false } ∧
    StatusBadge none = BadgeOutcome.renders { config := uploadedConfig, spin := false } ∧
    (∀ s : String, s ≠ "uploaded" → s ≠ "processing" → s ≠ "completed" → s ≠ "failed" →
      s ∉ objectPrototypeMembers →
      StatusBadge (some s) =
        BadgeOutcome.renders { config := uploadedConfig, spin := false }) ∧
    (∀ s : String, s ∈ objectPrototypeMembers →
      StatusBadge (some s) = BadgeOutcome.renderError) := by
  refine ⟨by decide, by decide, by decide, by decide, by decide, ?_, ?_⟩
  · intro s h1 h2 h3 h4 hp
    simp [StatusBadge, statusConfigLookup, h1, h2, h3, h4, hp,
          beq_eq_false_iff_ne.mpr h2]
  · intro s hs
    have h1 : s ≠ "uploaded" := by rintro rfl; revert hs; decide
    have h2 : s ≠ "processing" := by rintro rfl; revert hs; decide
    have h3 : s ≠ "completed" := by rintro rfl; revert hs; decide
    have h4 : s ≠ "failed" := by rintro rfl; revert hs; decide
    simp [StatusBadge, statusConfigLookup, h1, h2, h3, h4, hs]

/-- Witness for the corrected C8 at a concrete unknown status string that is
not an inherited member name. -/
theorem statusBadge_amended_witness :
    StatusBadge (some "archived") =
      BadgeOutcome.renders { config := uploadedConfig, spin := false } :=
  statusBadge_amended.2.2.2.2.2.1 "archived" (by decide) (by decide) (by decide)
    (by decide) (by decide)

/-- Claim C9: ContractValueDisplay is total and its branches are ordered:
null, undefined and non-object inputs render Not found; an object with neither
a pricing_summary key nor an amount key renders Not found; and an object whose
pricing_summary property is truthy takes the pricing-summary rendering even
when the legacy keys are also present. -/
theorem contractValueDisplay_branches :
    ContractValueDisplay JSValue.null = ValueRendering.notFound ∧
    ContractValueDisplay JSValue.undefinedJS = ValueRendering.notFound ∧
    (∀ b, ContractValueDisplay (JSValue.bool b) = ValueRendering.notFound) ∧
    (∀ n, ContractValueDisplay (JSValue.num n) = ValueRendering.notFound) ∧
    (∀ s, ContractValueDisplay (JSValue.str s) = ValueRendering.notFound) ∧
    (∀ fs : List (String × JSValue), fs.lookup "pricing_summary" = none →
      fs.lookup "amount" = none →
      ContractValueDisplay (JSValue.obj fs) = ValueRendering.notFound) ∧
    (∀ fs : List (String × JSValue),
      ((JSValue.obj fs).get "pricing_summary").truthy = true →
      ∃ m p e t vb, ContractValueDisplay (JSValue.obj fs) =
        ValueRendering.pricing ((JSValue.obj fs).get "pricing_summary") m p e t vb) := by
  refine ⟨rfl, rfl, ?_, ?_, ?_, ?_, ?_⟩
  · intro b
    cases b <;> rfl
  · intro n
    simp [ContractValueDisplay, JSValue.truthy, JSValue.typeofIsObject]
  · intro s
    simp [ContractValueDisplay, JSValue.truthy, JSValue.typeofIsObject]
  · intro fs hps ham
    simp [ContractValueDisplay, JSValue.truthy, JSValue.typeofIsObject,
          JSValue.get, JSValue.hasKey, hps, ham]
  · intro fs hps
    refine ⟨((JSValue.obj fs).get "monthly_fee").truthy,
            ((JSValue.obj fs).get "percentage_rate").truthy,
            ((JSValue.obj fs).get "per_encounter_fee").truthy,
            ((JSValue.obj fs).get "total_value").truthy,
            ((JSValue.obj fs).get "is_variable").truthy, ?_⟩
    have h1 : (JSValue.obj fs).truthy = true := rfl
    have h2 : (JSValue.obj fs).typeofIsObject = true := rfl
    simp [ContractValueDisplay, h1, h2, hps]

/-- Witness for C9: a concrete object carrying both a truthy pricing_summary
and the legacy amount key takes the pricing-summary rendering. -/
theorem contractValueDisplay_branches_witness :
    ∃ m p e t vb,
      ContractValueDisplay (JSValue.obj
        [("pricing_summary", JSValue.str "Flat monthly fee"),
         ("amount", JSValue.num 500)]) =
      ValueRendering.pricing ((JSValue.obj
        [("pricing_summary", JSValue.str "Flat monthly fee"),
         ("amount", JSValue.num 500)]).get "pricing_summary") m p e t vb :=
  contractValueDisplay_branches.2.2.2.2.2.2 _ (by decide)

/-- Claim C1: normalization coerces every legacy single-amount monetary value
to the pricing-summary shape at ingestion, so normalized structured data is
everywhere canonical and downstream consumers only see the pricing-summary
shape; and a legacy value flattens, after normalization, to exactly the
Extracted Fields of its semantically equivalent pricing-summary value. -/
theorem normalization_canonicalizes_legacy_money :
    (∀ p : RawPayload, sdCanonical (normalizePayload p) = true) ∧
    (∀ a c e cat f,
      flattenValue cat f (normalizeValue (FieldValue.legacyMoney a c e)) =
        flattenValue cat f (FieldValue.pricing (coerceLegacyMoney a c e))) := by
  constructor
  · intro p
    simp [sdCanonical, categoriesOf, normalizePayload, normalizeCategory_canonical]
  · intro a c e cat f
    rfl

/-- Claim C2: a structurally valid but incomplete AI response is a success, a
parse failure is the only schema error, every canonical field of every one of
the six categories is present in the normalized output, and a payload with no
categories normalizes to the all-absent structured data (every field carrying
the explicit not-found marker rather than being omitted). -/
theorem schema_partial_success_fields_present :
    (∀ p : RawPayload, validate_and_normalize (some p) = Except.ok (normalizePayload p)) ∧
    validate_and_normalize none = Except.error SchemaError.malformed_output ∧
    (∀ p : RawPayload, sdComplete (normalizePayload p) = true) ∧
    normalizePayload emptyRawPayload = allAbsentStructuredData := by
  refine ⟨fun p => rfl, rfl, ?_, by decide⟩
  intro p
  simp [sdComplete, normalizePayload, normalizeCategory_complete]

/-- Claim C6: flattening is a deterministic pure function of the structured
data (re-flattening the same data yields the same field set), and the
resulting Extracted Field set does not depend on the order in which the
categories are processed. -/
theorem flatten_deterministic_order_independent :
    (∀ sd : StructuredData,
      (flattenStructuredData sd).toFinset = (flattenStructuredData sd).toFinset) ∧
    (∀ cats1 cats2 : List (String × Category), cats1.Perm cats2 →
      (flattenWith cats1).toFinset = (flattenWith cats2).toFinset) := by
  constructor
  · intro sd
    rfl
  · intro cats1 cats2 hp
    exact List.toFinset_eq_of_perm _ _ ((hp.map _).flatten)

/-- Witness for C6: two concrete category lists that are permutations of each
other flatten to the same Extracted Field set. -/
theorem flatten_deterministic_order_independent_witness :
    (flattenWith
      [("financial_terms", [("contract_value", FieldValue.scalarS "fixed")]),
       ("vendor_information", [("vendor_name", FieldValue.scalarS "Acme")])]).toFinset =
    (flattenWith
      [("vendor_information", [("vendor_name", FieldValue.scalarS "Acme")]),
       ("financial_terms", [("contract_value", FieldValue.scalarS "fixed")])]).toFinset :=
  flatten_deterministic_order_independent.2 _ _
    (List.Perm.swap ("vendor_information", [("vendor_name", FieldValue.scalarS "Acme")])
      ("financial_terms", [("contract_value", FieldValue.scalarS "fixed")]) [])

/-- Claim C3: for every reachable contract record, the error message is
non-null exactly when the status is failed; every lifecycle operation
preserves this invariant. -/
theorem contract_status_error_invariant (c : ContractRec) (h : Reachable c) :
    c.error_message.isSome = true ↔ c.status = Status.failed := by
  induction h with
  | created cid => simp [newContract]
  | started c1 c2 hr hok ih =>
    unfold startAnalysis at hok
    split at hok
    · simp at hok
    · injection hok with h2
      subst h2
      simp
  | completedStep c1 a hr ih =>
    unfold finishCompleted
    split
    · simp
    · exact ih
  | failedStep c1 msg hr ih =>
    unfold finishFailed
    split
    · simp
    · exact ih

/-- Witness for C3 at the freshly created contract record. -/
theorem contract_status_error_invariant_witness :
    (newContract 0).error_message.isSome = true ↔ (newContract 0).status = Status.failed :=
  contract_status_error_invariant (newContract 0) (Reachable.created 0)

/-- For every reachable record, exactly one attempt is in flight while the
status is processing and none otherwise. -/
theorem inFlight_eq_processing (c : ContractRec) (h : Reachable c) :
    c.inFlight = if c.status = Status.processing then 1 else 0 := by
  induction h with
  | created cid => simp [newContract]
  | started c1 c2 hr hok ih =>
    unfold startAnalysis at hok
    split at hok
    · simp at hok
    · injection hok with h2
      subst h2
      rename_i hns
      simp [ih, hns]
  | completedStep c1 a hr ih =>
    unfold finishCompleted
    split
    · rename_i hp
      simp [ih, hp]
    · rename_i hnp
      simp [ih, hnp]
  | failedStep c1 msg hr ih =>
    unfold finishFailed
    split
    · rename_i hp
      simp [ih, hp]
    · rename_i hnp
      simp [ih, hnp]

/-- Claim C5: a reanalyze request issued while the contract is already in
processing is rejected with ConcurrencyError (the compare-and-set transition
returns no updated record, so the stored status is untouched), and at most one
analysis attempt is ever in flight for a reachable contract record. -/
theorem reanalyze_rejected_while_processing :
    (∀ cid em an k,
      startAnalysis { contractId := cid, status := Status.processing,
                      error_message := em, analyses := an, inFlight := k } =
        Except.error AppError.concurrencyError) ∧
    (∀ c : ContractRec, Reachable c → c.inFlight ≤ 1) := by
  constructor
  · intro cid em an k
    simp [startAnalysis]
  · intro c h
    rw [inFlight_eq_processing c h]
    split <;> simp

/-- Witness for C5 at the freshly created contract record. -/
theorem reanalyze_rejected_while_processing_witness :
    (newContract 7).inFlight ≤ 1 :=
  reanalyze_rejected_while_processing.2 (newContract 7) (Reachable.created 7)

/-- When every attempt times out, the retry loop fails with the timeout error
after exactly one more attempt than the allowed retries. -/
theorem callWithRetry_all_timeout (n a : Nat) :
    callWithRetry (fun _ => Except.error AIError.timeout) n a =
      (Except.error AIError.timeout, n + 1) := by
  induction n generalizing a with
  | zero => rfl
  | succ k ih => simp [callWithRetry, isTransient, ih]

/-- The retry loop makes at most one more attempt than the allowed retries. -/
theorem callWithRetry_bound (ai : Nat → Except AIError String) (n a : Nat) :
    (callWithRetry ai n a).2 ≤ n + 1 := by
  induction n generalizing a with
  | zero =>
    cases h : ai a <;> simp [callWithRetry, h]
  | succ k ih =>
    cases h : ai a with
    | ok t => simp [callWithRetry, h]
    | error e =>
      by_cases ht : isTransient e = true
      · simp only [callWithRetry, h, ht, if_true]
        exact Nat.succ_le_succ (ih (a + 1))
      · simp only [callWithRetry, h, Bool.not_eq_true] at ht ⊢
        simp [ht]

/-- Claim C7: transient AI-service errors are retried a bounded number of
times with exponential backoff before becoming terminal; non-transient errors,
extraction errors and schema errors are never retried; and when the AI service
times out on every attempt the contract ends failed with a non-empty error
message and no Analysis record is created. -/
theorem retry_policy_and_timeout_failure :
    (∀ ai n a, (callWithRetry ai n a).2 ≤ n + 1) ∧
    (∀ base k, backoffDelay base (k + 1) = 2 * backoffDelay base k) ∧
    (∀ e a n, isTransient e = false →
      callWithRetry (fun _ => Except.error e) n a = (Except.error e, 1)) ∧
    (∀ ai n parse e, runAnalysisAttempt (Except.error e) ai n parse =
      { outcome := AnalysisOutcome.failedA (extractionErrorMessage e), aiCalls := 0 }) ∧
    (∀ text n, runAnalysisAttempt (Except.ok text) (fun _ => Except.ok "resp") n
        (fun _ => none) =
      { outcome := AnalysisOutcome.failedA (schemaErrorMessage SchemaError.malformed_output),
        aiCalls := 1 }) ∧
    (∀ text n parse,
      runAnalysisAttempt (Except.ok text) (fun _ => Except.error AIError.timeout) n parse =
      { outcome := AnalysisOutcome.failedA (aiErrorMessage AIError.timeout),
        aiCalls := n + 1 }) ∧
    aiErrorMessage AIError.timeout ≠ "" ∧
    (∀ cid em an n text parse,
      applyOutcome { contractId := cid, status := Status.processing, error_message := em,
                     analyses := an, inFlight := 1 } 0
        (runAnalysisAttempt (Except.ok text) (fun _ => Except.error AIError.timeout) n parse) =
      { contractId := cid, status := Status.failed,
        error_message := some (aiErrorMessage AIError.timeout),
        analyses := an, inFlight := 0 }) := by
  refine ⟨callWithRetry_bound, ?_, ?_, fun ai n parse e => rfl, ?_, ?_, by decide, ?_⟩
  · intro base k
    simp [backoffDelay, Nat.pow_succ]
    ring
  · intro e a n ht
    cases n with
    | zero => rfl
    | succ k => simp [callWithRetry, ht]
  · intro text n
    cases n <;> simp [runAnalysisAttempt, callWithRetry, validate_and_normalize]
  · intro text n parse
    simp [runAnalysisAttempt, callWithRetry_all_timeout]
  · intro cid em an n text parse
    simp [runAnalysisAttempt, callWithRetry_all_timeout, applyOutcome, finishFailed]

/-- Witness for C7: a non-transient AI error at a concrete input is terminal
on the first attempt, with no retry. -/
theorem retry_policy_and_timeout_failure_witness :
    callWithRetry (fun _ => Except.error (AIError.invalidRequest "bad")) 3 0 =
      (Except.error (AIError.invalidRequest "bad"), 1) :=
  retry_policy_and_timeout_failure.2.2.1 (AIError.invalidRequest "bad") 0 3 (by decide)

/-- A failed validation leaves the store untouched: no record is created. -/
theorem upload_of_validate_error (ms : Nat) (st : List ContractRec) (m : FileMeta)
    (e : ValidationError) (hv : validate ms m = Except.error e) :
    upload ms st m = (some e, st) := by
  simp [upload, hv]

/-- Claim C4: uploads failing validation create no contract record; a file of
exactly the configured maximum size is accepted; one byte over the maximum is
rejected with the size error before any record is created; an empty file and
an unsupported file type are rejected. -/
theorem upload_validation_boundaries :
    (∀ ms st m e, validate ms m = Except.error e → upload ms st m = (some e, st)) ∧
    (∀ fn, validate defaultMaxSize
        { filename := fn, content_type := "application/pdf", size := defaultMaxSize } =
      Except.ok FileType.pdf) ∧
    (∀ fn st, upload defaultMaxSize st
        { filename := fn, content_type := "application/pdf", size := defaultMaxSize + 1 } =
      (some ValidationError.tooLarge, st)) ∧
    (∀ ms fn, validate ms { filename := fn, content_type := "application/pdf", size := 0 } =
      Except.error ValidationError.emptyFile) ∧
    (∀ ms sz, validate ms
        { filename := "contract.txt", content_type := "text/plain", size := sz } =
      Except.error ValidationError.unsupportedType) := by
  have hpdf : ∀ fn : String, detectFileType fn "application/pdf" = some FileType.pdf := by
    intro fn
    simp [detectFileType]
  have htxt : detectFileType "contract.txt" "text/plain" = none := by decide
  refine ⟨upload_of_validate_error, ?_, ?_, ?_, ?_⟩
  · intro fn
    simp [validate, hpdf, defaultMaxSize]
  · intro fn st
    have hv : validate defaultMaxSize
        { filename := fn, content_type := "application/pdf", size := defaultMaxSize + 1 } =
        Except.error ValidationError.tooLarge := by
      simp [validate, hpdf, defaultMaxSize]
    exact upload_of_validate_error _ _ _ _ hv
  · intro ms fn
    simp [validate, hpdf]
  · intro ms sz
    simp [validate, htxt]

/-- Witness for C4: a concrete unsupported upload leaves the store untouched. -/
theorem upload_validation_boundaries_witness :
    upload defaultMaxSize []
      { filename := "contract.txt", content_type := "text/plain", size := 10 } =
      (some ValidationError.unsupportedType, []) :=
  upload_validation_boundaries.1 defaultMaxSize []
    { filename := "contract.txt", content_type := "text/plain", size := 10 }
    ValidationError.unsupportedType
    (upload_validation_boundaries.2.2.2.2 defaultMaxSize 10)

/-- Claim C10: the contract list view always requests exactly page 1 with page
size 50, and consequently displays at most 50 contracts however many exist. -/
theorem contract_list_single_page :
    fetchContractsRequest = { page := 1, page_size := 50 } ∧
    ∀ l : List ContractRec, (contractListDisplayed l).length ≤ 50 := by
  constructor
  · rfl
  · intro l
    simp [contractListDisplayed, paginate, fetchContractsRequest, List.length_take]
